import Mathlib

/-!
A shallow embedding of `target_cassandra` (`src/target_cassandra/__init__.py`),
a Singer target that replicates a line-delimited message stream (SCHEMA /
RECORD / STATE / ACTIVATE_VERSION messages) into Cassandra tables.

The embedding follows the Python source function by function:

* `JSONSCHEMA_TO_CASSANDRA`, `jsonschema_to_cassandra` — the JSON-Schema to
  Cassandra column-type mapper (source lines 29-68);
* `process_schema` — the schema translator building a model's column set
  (lines 71-82);
* `JSONVALUE_TO_CASSANDRA`, `build_record` — per-record value coercion and the
  record-dict construction loop of `persist_lines` (lines 41-43, 146-155);
* `step` / `persist_lines` / `emit_state` — the message-stream state machine
  (lines 85-90, 104-186).

Python exceptions are modelled as `Except`/error results; mutation of the
per-stream dictionaries is explicit state passing on `ProcState`.  JSON values
are restricted to the scalar values the claims exercise.  The external
collaborators are modelled at their interface: `dateutil.parser.parse` as an
opaque injection of the ISO string into a `CassValue.datetime` constructor,
`Draft4Validator(schema).validate` as a boolean-valued function parameter of
the state machine, `sync_table` and `Model.save` as append-only logs inside
`ProcState`.
-/

/-- A JSON scalar value.  JSON `null` corresponds to Python `None`: in the
source, `state = o['value']` stores Python `None` when the payload is JSON
null, and `emit_state` tests `state is not None`, so `JValue.null` doubles as
the "no pending checkpoint" sentinel of the checkpoint slot. -/
inductive JValue where
  | null : JValue
  | bool (b : Bool) : JValue
  | num (n : Int) : JValue
  | str (s : String) : JValue
deriving DecidableEq, Repr

/-- The Cassandra column classes the source uses (`cassandra.cqlengine.columns`):
`Text`, `Boolean`, `Integer`, `Float`, `DateTime`. -/
inductive CassColumn where
  | Text : CassColumn
  | Boolean : CassColumn
  | Integer : CassColumn
  | Float : CassColumn
  | DateTime : CassColumn
deriving DecidableEq, Repr

/-- The value of the `type` key of a JSON-Schema property definition: either a
single type name or a list of type names (source lines 57 and 64 branch on
`type(jsonschema_type)`). -/
inductive JSONType where
  | single (s : String) : JSONType
  | list (ss : List String) : JSONType
deriving DecidableEq, Repr

/-- A JSON-Schema property definition, restricted to the keys
`jsonschema_to_cassandra` reads: an optional `anyOf` list of alternative
definitions, an optional `type`, and an optional `format` hint.  A missing
key is `none` (reading a missing `type` key raises `KeyError` in Python). -/
inductive JSDef where
  | mk (anyOf : Option (List JSDef)) (type : Option JSONType)
      (format : Option String) : JSDef
deriving Repr

/-- The `anyOf` field of a `JSDef`. -/
def JSDef.anyOf : JSDef → Option (List JSDef)
  | .mk a _ _ => a

/-- The `type` field of a `JSDef`. -/
def JSDef.type : JSDef → Option JSONType
  | .mk _ t _ => t

/-- The `format` field of a `JSDef`. -/
def JSDef.format : JSDef → Option String
  | .mk _ _ f => f

/-- The ways the type mapper can raise.  `unknownType` is the failure of
`assert jsonschema_type in JSONSCHEMA_TO_CASSANDRA` (line 58); `unionNotSingle`
the failure of `assert(len(property_type) == 1)` (line 67) — the spec's
taxonomy calls both `SchemaError`; `missingType` the `KeyError` on a definition
with no `type` key (line 53); `emptyAnyOf` the `IndexError` on
`jsonschema_definition['anyOf'][0]` (line 51). -/
inductive MapError where
  | unknownType (s : String) : MapError
  | unionNotSingle : MapError
  | missingType : MapError
  | emptyAnyOf : MapError
deriving DecidableEq, Repr

/-- The fixed dict `JSONSCHEMA_TO_CASSANDRA` (source lines 29-37).  The outer
`Option` is dict membership (`none` = key absent, so the `assert` on line 58
fails); the inner `Option CassColumn` is the stored value, where `none` is the
Python `None` sentinel meaning "unsupported, drop this column". -/
def JSONSCHEMA_TO_CASSANDRA (t : String) : Option (Option CassColumn) :=
  if t = "string" then some (some .Text)
  else if t = "array" then some none
  else if t = "boolean" then some (some .Boolean)
  else if t = "integer" then some (some .Integer)
  else if t = "number" then some (some .Float)
  else if t = "null" then some none
  else if t = "object" then some none
  else none

/-- The single-string-type branch of `jsonschema_to_cassandra` (source lines
57-63): assert the type name is known, then map `string` + `date-time` format
to `DateTime` and everything else through the fixed table. -/
def mapSingle (t : String) (format : Option String) :
    Except MapError (Option CassColumn) :=
  match JSONSCHEMA_TO_CASSANDRA t with
  | none => .error (.unknownType t)
  | some mapped =>
    if t = "string" ∧ format = some "date-time" then .ok (some .DateTime)
    else .ok mapped

/-- `jsonschema_to_cassandra` (source lines 46-68).  An `anyOf` definition
recursively maps its first alternative; a single-string type goes through
`mapSingle`; a list type drops `"null"` entries, asserts exactly one type name
remains and recurses into the single-type case carrying the other keys
(in particular `format`) forward. -/
def jsonschema_to_cassandra : JSDef → Except MapError (Option CassColumn)
  | .mk (some []) _ _ => .error .emptyAnyOf
  | .mk (some (a :: _)) _ _ => jsonschema_to_cassandra a
  | .mk none none _ => .error .missingType
  | .mk none (some (.single s)) format => mapSingle s format
  | .mk none (some (.list ss)) format =>
    match ss.filter (fun pt => pt != "null") with
    | [t] => mapSingle t format
    | _ => .error .unionNotSingle

/-- A stream's JSON Schema, restricted to the key `process_schema` reads:
`schema['properties']`, a mapping from property name to property definition.
JSON objects have unique keys, so the association list is key-unique whenever
it comes from a parsed message. -/
structure Schema where
  properties : List (String × JSDef)
deriving Repr

/-- A column of a generated model: the attribute name, the Cassandra column
class, and the `primary_key=...` flag passed on line 78-79. -/
structure ColumnDef where
  name : String
  ctype : CassColumn
  primary_key : Bool
deriving DecidableEq, Repr

/-- The model class built by `type("%sModel" % table_name, (Model,), model_attrs)`
(line 82): its class name and its column attributes. -/
structure Model where
  name : String
  columns : List ColumnDef
deriving Repr

/-- The property loop of `process_schema` (lines 73-79): map each property
definition; a `None` result (`model_column_class is None`) skips the property
(`continue`); otherwise the property becomes a column whose `primary_key` flag
is `property_key in key_properties`.  A mapper exception propagates. -/
def process_props (props : List (String × JSDef)) (key_properties : List String) :
    Except MapError (List ColumnDef) :=
  match props with
  | [] => .ok []
  | (k, d) :: rest =>
    match jsonschema_to_cassandra d with
    | .error e => .error e
    | .ok none => process_props rest key_properties
    | .ok (some c) =>
      match process_props rest key_properties with
      | .error e => .error e
      | .ok tail => .ok (⟨k, c, key_properties.contains k⟩ :: tail)

/-- `process_schema` (source lines 71-82): translate a stream's schema into a
model whose class name is derived from the table name. -/
def process_schema (table_name : String) (schema : Schema)
    (key_properties : List String) : Except MapError Model :=
  match process_props schema.properties key_properties with
  | .error e => .error e
  | .ok cols => .ok ⟨table_name ++ "Model", cols⟩

/-- A value stored into a model attribute.  `fromJson v` is the identity
typecast of line 41 (and Python `None` for a JSON null); `datetime iso` is the
result of `dateutil.parser.parse(iso)` (line 42), modelled opaquely by the ISO
string handed to the external parser. -/
inductive CassValue where
  | fromJson (v : JValue) : CassValue
  | datetime (iso : String) : CassValue
deriving DecidableEq, Repr

/-- The run-aborting errors of `persist_lines` and its helpers, per the spec's
taxonomy.  `protocolError` is the record-before-schema exception (line 133);
`keyPropertiesRequired` the missing `key_properties` exception (line 169);
`validationError` a `Draft4Validator.validate` failure (line 140);
`missingField` the `KeyError` on `o['record'][column_name]` (line 152);
`coerceError` a typecast failure (`dateutil.parser.parse` on a non-string);
`schemaError` a type-mapper failure inside `process_schema`;
`internalLookup` a `KeyError` on a per-stream dict that the state machine in
fact keeps in sync with `schemas` (unreachable in real runs). -/
inductive Err where
  | protocolError (stream : String) : Err
  | keyPropertiesRequired : Err
  | validationError (stream : String) : Err
  | missingField (column : String) : Err
  | coerceError : Err
  | schemaError (e : MapError) : Err
  | internalLookup : Err
deriving DecidableEq, Repr

/-- The typecast table `JSONVALUE_TO_CASSANDRA` (source lines 41-43): a
defaultdict whose default is the identity; the entry for `columns.DateTime` is
`lambda v: None if v is None else dateutil.parser.parse(v)`.  Parsing a
non-string raises (`coerceError`); parsing a string is modelled as the opaque
`CassValue.datetime` injection. -/
def JSONVALUE_TO_CASSANDRA (c : CassColumn) (v : JValue) : Except Err CassValue :=
  match c with
  | .DateTime =>
    match v with
    | .null => .ok (.fromJson .null)
    | .str s => .ok (.datetime s)
    | _ => .error .coerceError
  | _ => .ok (.fromJson v)

/-- First-match lookup in an association list: Python dict indexing (`d[k]`),
with `none` for a `KeyError`. -/
def lookupAssoc {α : Type} : List (String × α) → String → Option α
  | [], _ => none
  | (k, v) :: rest, key => if k = key then some v else lookupAssoc rest key

/-- Python dict assignment `d[k] = v`: replace the value in place when the key
exists, append otherwise. -/
def updateAssoc {α : Type} (l : List (String × α)) (k : String) (v : α) :
    List (String × α) :=
  if l.any (fun p => p.1 = k) then
    l.map (fun p => if p.1 = k then (k, v) else p)
  else l ++ [(k, v)]

/-- The record-dict construction loop of `persist_lines` (lines 148-152): for
every defined column, look the raw value up in the record (a missing key is a
`KeyError`, the spec's `MissingFieldError`) and run it through the typecaster
for the column's class.  The column iteration runs over the model's columns:
`defined_column_names[stream]` is `set(mapped_models[stream]._columns.keys())`
(line 177), so both loops range over the same column set. -/
def build_record (cols : List ColumnDef) (r : List (String × JValue)) :
    Except Err (List (String × CassValue)) :=
  match cols with
  | [] => .ok []
  | c :: rest =>
    match lookupAssoc r c.name with
    | none => .error (.missingField c.name)
    | some v =>
      match JSONVALUE_TO_CASSANDRA c.ctype v with
      | .error e => .error e
      | .ok cv =>
        match build_record rest r with
        | .error e => .error e
        | .ok tail => .ok ((c.name, cv) :: tail)

/-- The validator object `Draft4Validator(o['schema'])` (line 167), determined
by the schema it is built from; its `validate` behaviour is the external
`jsonschema` library's and is a parameter of the state machine. -/
structure Validator where
  schema : Schema
deriving Repr

/-- `Draft4Validator` construction (line 167). -/
def Draft4Validator (s : Schema) : Validator := ⟨s⟩

/-- A parsed input line, restricted to the message shapes the claims exercise
(a well-formed `type` field, `stream`/`record`/`schema`/`value` payloads
present; `key_properties` may be absent, which claim C10 is about). -/
inductive Message where
  | record (stream : String) (record : List (String × JValue)) : Message
  | state (value : JValue) : Message
  | schema (stream : String) (schema : Schema)
      (key_properties : Option (List String)) : Message
  | activate_version : Message

/-- The mutable state of one `persist_lines` run (lines 105-111), plus two
logs for the external storage collaborator: `synced` records `sync_table`
calls (line 174) and `storage` records `model_instance.save()` row inserts
(lines 154-155). -/
structure ProcState where
  state : JValue
  schemas : List (String × Schema)
  validators : List (String × Validator)
  key_properties : List (String × List String)
  mapped_models : List (String × Model)
  defined_column_names : List (String × List String)
  synced : List (String × Model)
  storage : List (String × List (String × CassValue))
deriving Repr

/-- The state at the top of `persist_lines` (lines 105-111): `state = None`,
every per-stream dict empty, nothing synced or stored. -/
def initState : ProcState :=
  { state := .null, schemas := [], validators := [], key_properties := [],
    mapped_models := [], defined_column_names := [], synced := [], storage := [] }

/-- One iteration of the `persist_lines` message loop (lines 116-184),
parameterised by the external validator behaviour.  The result is the state
after the iteration together with `some e` when the iteration raised `e` —
mutations performed before raising (claim C10) are visible in the returned
state.  Branches mirror the source: RECORD checks stream declaration, then
validates, then builds and saves the row and clears `state`; STATE overwrites
`state`; SCHEMA stores `schemas[stream]` and `validators[stream]`, then
requires `key_properties`, stores it, builds and syncs the model, and records
the defined column names; ACTIVATE_VERSION is a logged no-op. -/
def step (validate : Validator → List (String × JValue) → Bool)
    (st : ProcState) (m : Message) : ProcState × Option Err :=
  match m with
  | .record s r =>
    match lookupAssoc st.schemas s with
    | none => (st, some (.protocolError s))
    | some _ =>
      match lookupAssoc st.validators s with
      | none => (st, some .internalLookup)
      | some vd =>
        if validate vd r then
          match lookupAssoc st.mapped_models s with
          | none => (st, some .internalLookup)
          | some model =>
            match build_record model.columns r with
            | .error e => (st, some e)
            | .ok row =>
              ({ st with storage := st.storage ++ [(s, row)], state := .null },
               none)
        else (st, some (.validationError s))
  | .state v => ({ st with state := v }, none)
  | .schema s sch kp =>
    let st1 := { st with
      schemas := updateAssoc st.schemas s sch,
      validators := updateAssoc st.validators s (Draft4Validator sch) }
    match kp with
    | none => (st1, some .keyPropertiesRequired)
    | some keys =>
      let st2 := { st1 with
        key_properties := updateAssoc st1.key_properties s keys }
      match process_schema s sch keys with
      | .error e => (st2, some (.schemaError e))
      | .ok model =>
        let st3 := { st2 with
          mapped_models := updateAssoc st2.mapped_models s model }
        let st4 := { st3 with synced := st3.synced ++ [(s, model)] }
        let cnames := model.columns.map ColumnDef.name
        let st5 := { st4 with
          defined_column_names := updateAssoc st4.defined_column_names s cnames }
        (st5, none)
  | .activate_version => (st, none)

/-- The message loop of `persist_lines` (lines 116-186): process messages in
order until exhaustion or the first raised exception (fail-fast: nothing is
recovered locally). -/
def persist_lines (validate : Validator → List (String × JValue) → Bool)
    (st : ProcState) : List Message → ProcState × Option Err
  | [] => (st, none)
  | m :: ms =>
    match step validate st m with
    | (st', none) => persist_lines validate st' ms
    | (st', some e) => (st', some e)

/-- `emit_state` (lines 85-90): the lines written to standard output — one
JSON line when the final state is not `None`, nothing otherwise. -/
def emit_state (state : JValue) : List JValue :=
  match state with
  | .null => []
  | v => [v]

/-- A whole run of `persist_lines` from the initial state. -/
def run (validate : Validator → List (String × JValue) → Bool)
    (ms : List Message) : ProcState × Option Err :=
  persist_lines validate initState ms

/-- The standard-output lines of a whole run, as produced by `main` (lines
204-207): `emit_state` on the returned checkpoint after a normal return, and
nothing when `persist_lines` raised (the process aborts before `emit_state`). -/
def run_output (validate : Validator → List (String × JValue) → Bool)
    (ms : List Message) : List JValue :=
  match run validate ms with
  | (st, none) => emit_state st.state
  | (_, some _) => []

/-- A concrete mid-run state used for closed instances: stream `"s"` is
declared with a single integer key column and a checkpoint is pending. -/
def stW : ProcState :=
  { state := .str "A",
    schemas := [("s", ⟨[("id", .mk none (some (.single "integer")) none)]⟩)],
    validators :=
      [("s", ⟨⟨[("id", .mk none (some (.single "integer")) none)]⟩⟩)],
    key_properties := [("s", ["id"])],
    mapped_models := [("s", ⟨"sModel", [⟨"id", .Integer, true⟩]⟩)],
    defined_column_names := [("s", ["id"])],
    synced := [], storage := [] }

example : jsonschema_to_cassandra (.mk none (some (.single "string")) none)
    = .ok (some .Text) := rfl

example : jsonschema_to_cassandra
    (.mk none (some (.list ["string", "null"])) (some "date-time"))
    = .ok (some .DateTime) := rfl

example : jsonschema_to_cassandra
    (.mk (some [.mk none (some (.single "integer")) none]) none none)
    = .ok (some .Integer) := rfl

/-- C4: for a property definition whose `type` is a single string, the type
mapper returns the fixed table's value — string maps to Text, boolean to
Boolean, integer to Integer, number to Float, and null/array/object to the
unsupported (drop) sentinel — except that `"string"` with format `date-time`
maps to `DateTime` instead of Text. -/
theorem single_type_mapping (fmt : Option String) :
    jsonschema_to_cassandra (.mk none (some (.single "string")) fmt)
      = .ok (some (if fmt = some "date-time" then .DateTime else .Text))
  ∧ jsonschema_to_cassandra (.mk none (some (.single "boolean")) fmt)
      = .ok (some .Boolean)
  ∧ jsonschema_to_cassandra (.mk none (some (.single "integer")) fmt)
      = .ok (some .Integer)
  ∧ jsonschema_to_cassandra (.mk none (some (.single "number")) fmt)
      = .ok (some .Float)
  ∧ jsonschema_to_cassandra (.mk none (some (.single "null")) fmt) = .ok none
  ∧ jsonschema_to_cassandra (.mk none (some (.single "array")) fmt) = .ok none
  ∧ jsonschema_to_cassandra (.mk none (some (.single "object")) fmt)
      = .ok none := by
  by_cases h : fmt = some "date-time" <;>
    refine ⟨?_, ?_, ?_, ?_, ?_, ?_, ?_⟩ <;>
      simp [jsonschema_to_cassandra, mapSingle, JSONSCHEMA_TO_CASSANDRA, h]

/-- Closed instance of `single_type_mapping` at a concrete format hint. -/
theorem single_type_mapping_witness :
    jsonschema_to_cassandra (.mk none (some (.single "string")) (some "date-time"))
      = .ok (some (if (some "date-time" : Option String) = some "date-time"
          then .DateTime else .Text)) :=
  (single_type_mapping (some "date-time")).1

/-- C5: for a property definition whose `type` is a list of strings, the type
mapper removes `"null"` and fails (the `assert(len(property_type) == 1)`,
the spec's `SchemaError`) when zero or at least two type names remain; when
exactly one remains, the result equals mapping that single type alone with the
same `format` hint. -/
theorem union_type_mapping (ss : List String) (fmt : Option String) :
    (∀ t, ss.filter (fun pt => pt != "null") = [t] →
       jsonschema_to_cassandra (.mk none (some (.list ss)) fmt)
         = jsonschema_to_cassandra (.mk none (some (.single t)) fmt))
  ∧ (ss.filter (fun pt => pt != "null") = [] →
       jsonschema_to_cassandra (.mk none (some (.list ss)) fmt)
         = .error .unionNotSingle)
  ∧ (∀ t u rest, ss.filter (fun pt => pt != "null") = t :: u :: rest →
       jsonschema_to_cassandra (.mk none (some (.list ss)) fmt)
         = .error .unionNotSingle) := by
  refine ⟨fun t ht => ?_, fun h0 => ?_, fun t u rest h2 => ?_⟩ <;>
    simp only [jsonschema_to_cassandra] <;>
      [rw [ht]; rw [h0]; rw [h2]]

/-- Closed instance of `union_type_mapping`: `["string","null"]` maps exactly
as plain `"string"`, and `["string","integer"]` is rejected. -/
theorem union_type_mapping_witness :
    jsonschema_to_cassandra (.mk none (some (.list ["string", "null"])) none)
      = jsonschema_to_cassandra (.mk none (some (.single "string")) none)
  ∧ jsonschema_to_cassandra (.mk none (some (.list ["string", "integer"])) none)
      = .error .unionNotSingle :=
  ⟨(union_type_mapping ["string", "null"] none).1 "string" rfl,
   (union_type_mapping ["string", "integer"] none).2.2 "string" "integer" [] rfl⟩

/-- C6: a property definition carrying an `anyOf` alternatives list maps to
exactly what its first alternative maps to, whatever else the definition
contains — no merging of alternatives. -/
theorem anyof_first_alternative (a : JSDef) (rest : List JSDef)
    (ty : Option JSONType) (fmt : Option String) :
    jsonschema_to_cassandra (.mk (some (a :: rest)) ty fmt)
      = jsonschema_to_cassandra a := rfl

/-- Closed instance of `anyof_first_alternative`. -/
theorem anyof_first_alternative_witness :
    jsonschema_to_cassandra
        (.mk (some [.mk none (some (.single "integer")) none,
                    .mk none (some (.single "string")) none])
          (some (.single "string")) none)
      = jsonschema_to_cassandra (.mk none (some (.single "integer")) none) :=
  anyof_first_alternative (.mk none (some (.single "integer")) none)
    [.mk none (some (.single "string")) none] (some (.single "string")) none

/-- C3 (code bug): a schema whose declared key property has an unsupported
JSON type is translated *successfully* to a model with no column at all for
that key — `process_schema` silently drops the declared primary-key column
instead of failing loudly. -/
theorem unsupported_key_property_silently_dropped :
    process_schema "tbl"
        ⟨[("k", .mk none (some (.single "object")) none)]⟩ ["k"]
      = .ok ⟨"tblModel", []⟩ := rfl

/-- Every column produced by the property loop comes from a property of the
schema whose definition mapped to that column's type. -/
theorem process_props_ok_mem (props : List (String × JSDef)) (keys : List String)
    (cols : List ColumnDef) (h : process_props props keys = .ok cols) :
    ∀ col ∈ cols, ∃ d, (col.name, d) ∈ props ∧
      jsonschema_to_cassandra d = .ok (some col.ctype) := by
  induction props generalizing cols with
  | nil =>
    simp only [process_props] at h
    cases h
    intro col hcol
    cases hcol
  | cons p rest ih =>
    obtain ⟨k, d⟩ := p
    simp only [process_props] at h
    rcases hm : jsonschema_to_cassandra d with e | oc
    · rw [hm] at h; cases h
    · rcases oc with _ | c
      · rw [hm] at h
        intro col hcol
        obtain ⟨d', hd', hmap⟩ := ih cols h col hcol
        exact ⟨d', List.mem_cons_of_mem _ hd', hmap⟩
      · rw [hm] at h
        rcases hrest : process_props rest keys with e | tail
        · rw [hrest] at h; cases h
        · rw [hrest] at h
          cases h
          intro col hcol
          rcases List.mem_cons.mp hcol with hhead | htail
          · subst hhead
            exact ⟨d, List.mem_cons_self _ _, hm⟩
          · obtain ⟨d', hd', hmap⟩ := ih tail hrest col htail
            exact ⟨d', List.mem_cons_of_mem _ hd', hmap⟩

/-- In a key-unique association list, the value bound to a key is unique. -/
theorem lookup_nodup_mem {α : Type} :
    ∀ (props : List (String × α)) (k : String) (a b : α),
      (props.map Prod.fst).Nodup → (k, a) ∈ props → (k, b) ∈ props → a = b := by
  intro props
  induction props with
  | nil => intro k a b _ ha _; cases ha
  | cons p rest ih =>
    intro k a b hnd ha hb
    obtain ⟨k0, v0⟩ := p
    simp only [List.map_cons, List.nodup_cons] at hnd
    rcases List.mem_cons.mp ha with ha1 | ha1
    · rcases List.mem_cons.mp hb with hb1 | hb1
      · rw [Prod.mk.injEq] at ha1 hb1
        rw [ha1.2, hb1.2]
      · exfalso
        rw [Prod.mk.injEq] at ha1
        apply hnd.1
        rw [← ha1.1]
        simpa using List.mem_map_of_mem Prod.fst hb1
    · rcases List.mem_cons.mp hb with hb1 | hb1
      · exfalso
        rw [Prod.mk.injEq] at hb1
        apply hnd.1
        rw [← hb1.1]
        simpa using List.mem_map_of_mem Prod.fst ha1
      · exact ih k a b hnd.2 ha1 hb1

/-- A property whose definition maps to a supported column type always
contributes its column, flagged primary exactly by key-list membership. -/
theorem process_props_key_mem (props : List (String × JSDef)) (keys : List String)
    (cols : List ColumnDef) (k : String) (d : JSDef) (c : CassColumn)
    (hmem : (k, d) ∈ props) (hok : process_props props keys = .ok cols)
    (hmap : jsonschema_to_cassandra d = .ok (some c)) :
    (⟨k, c, keys.contains k⟩ : ColumnDef) ∈ cols := by
  induction props generalizing cols with
  | nil => cases hmem
  | cons p rest ih =>
    obtain ⟨k0, d0⟩ := p
    simp only [process_props] at hok
    rcases List.mem_cons.mp hmem with hhead | htail
    · cases hhead
      rw [hmap] at hok
      rcases hrest : process_props rest keys with e | tail
      · rw [hrest] at hok; cases hok
      · rw [hrest] at hok
        cases hok
        exact List.mem_cons_self _ _
    · rcases hm0 : jsonschema_to_cassandra d0 with e | oc
      · rw [hm0] at hok; cases hok
      · rcases oc with _ | c0
        · rw [hm0] at hok
          exact ih cols htail hok
        · rw [hm0] at hok
          rcases hrest : process_props rest keys with e | tail
          · rw [hrest] at hok; cases hok
          · rw [hrest] at hok
            cases hok
            exact List.mem_cons_of_mem _ (ih tail htail hrest)

/-- C7: for a key-unique property list, a property whose type maps to the drop
sentinel contributes no column at all to the translated model, and a property
whose type maps to a supported column contributes exactly one column whose
`primary_key` flag is true precisely when the property name is in the declared
key-property list. -/
theorem translate_columns (tbl : String) (props : List (String × JSDef))
    (keys : List String) (k : String) (d : JSDef) (model : Model)
    (hnd : (props.map Prod.fst).Nodup)
    (hmem : (k, d) ∈ props)
    (hok : process_schema tbl ⟨props⟩ keys = .ok model) :
    (jsonschema_to_cassandra d = .ok none → ∀ col ∈ model.columns, col.name ≠ k)
  ∧ (∀ c, jsonschema_to_cassandra d = .ok (some c) →
      (⟨k, c, keys.contains k⟩ : ColumnDef) ∈ model.columns
      ∧ (keys.contains k = true ↔ k ∈ keys)) := by
  have hcols : process_props props keys = .ok model.columns := by
    simp only [process_schema] at hok
    rcases hpp : process_props props keys with e | cols
    · rw [hpp] at hok; cases hok
    · rw [hpp] at hok; cases hok; rfl
  constructor
  · intro hnone col hcol hname
    obtain ⟨d', hd', hmap'⟩ := process_props_ok_mem props keys model.columns hcols col hcol
    rw [hname] at hd'
    have hdd : d' = d := lookup_nodup_mem props k d' d hnd hd' hmem
    rw [hdd, hnone] at hmap'
    cases hmap'
  · intro c hc
    exact ⟨process_props_key_mem props keys model.columns k d c hmem hcols hc,
           by simp⟩

/-- Closed instance of `translate_columns`: an integer key property
round-trips into a primary-key column. -/
theorem translate_columns_witness :
    ((⟨"id", CassColumn.Integer, true⟩ : ColumnDef) ∈
        (Model.mk "sModel" [⟨"id", CassColumn.Integer, true⟩]).columns)
    ∧ ((["id"].contains "id") = true ↔ "id" ∈ ["id"]) := by
  have h := (translate_columns "s"
      [("id", .mk none (some (.single "integer")) none)] ["id"] "id"
      (.mk none (some (.single "integer")) none)
      ⟨"sModel", [⟨"id", CassColumn.Integer, true⟩]⟩
      (by simp) (List.mem_cons_self _ _) rfl).2 CassColumn.Integer rfl
  exact h

/-- A successfully built row is keyed exactly by the model's column names, in
column order. -/
theorem build_record_ok_names (cols : List ColumnDef) (r : List (String × JValue)) :
    ∀ out, build_record cols r = .ok out →
      out.map Prod.fst = cols.map ColumnDef.name := by
  induction cols generalizing r with
  | nil =>
    intro out h
    simp only [build_record] at h
    cases h
    rfl
  | cons c rest ih =>
    intro out h
    simp only [build_record] at h
    rcases hl : lookupAssoc r c.name with _ | v
    · simp only [hl] at h; cases h
    · simp only [hl] at h
      rcases ht : JSONVALUE_TO_CASSANDRA c.ctype v with e | cv
      · simp only [ht] at h; cases h
      · simp only [ht] at h
        rcases hb : build_record rest r with e | tail
        · simp only [hb] at h; cases h
        · simp only [hb] at h
          cases h
          simp [ih r tail hb]

/-- Building a row reads the record only at the model's column names: two
records agreeing there build the same row. -/
theorem build_record_congr (cols : List ColumnDef) (r r' : List (String × JValue)) :
    (∀ c ∈ cols, lookupAssoc r' c.name = lookupAssoc r c.name) →
    build_record cols r' = build_record cols r := by
  induction cols with
  | nil => intro _; rfl
  | cons c rest ih =>
    intro h
    simp only [build_record]
    rw [h c (List.mem_cons_self _ _),
        ih (fun c' hc' => h c' (List.mem_cons_of_mem _ hc'))]

/-- C8: only the model's column names are extracted into the row (all other
record fields are ignored); a value destined for a `DateTime` column is handed
to the ISO-8601 parser when it is a string and maps to null when it is null
(no parse attempt); a value destined for any other column type passes through
unchanged. -/
theorem record_extraction_coercion (cols : List ColumnDef)
    (r : List (String × JValue)) :
    (∀ out, build_record cols r = .ok out →
       out.map Prod.fst = cols.map ColumnDef.name)
  ∧ (∀ r', (∀ c ∈ cols, lookupAssoc r' c.name = lookupAssoc r c.name) →
       build_record cols r' = build_record cols r)
  ∧ JSONVALUE_TO_CASSANDRA .DateTime .null = .ok (.fromJson .null)
  ∧ (∀ s, JSONVALUE_TO_CASSANDRA .DateTime (.str s) = .ok (.datetime s))
  ∧ (∀ ct v, ct ≠ .DateTime → JSONVALUE_TO_CASSANDRA ct v = .ok (.fromJson v)) := by
  refine ⟨build_record_ok_names cols r,
          fun r' h => build_record_congr cols r r' h, rfl, fun s => rfl, ?_⟩
  intro ct v hct
  cases ct with
  | DateTime => exact absurd rfl hct
  | Text => rfl
  | Boolean => rfl
  | Integer => rfl
  | Float => rfl

/-- Closed instance of `record_extraction_coercion`: a one-column model
extracts exactly its column, and an extra record field changes nothing. -/
theorem record_extraction_coercion_witness :
    ([("id", CassValue.fromJson (JValue.num 1))].map Prod.fst
       = [(⟨"id", CassColumn.Integer, true⟩ : ColumnDef)].map ColumnDef.name)
  ∧ (build_record [⟨"id", CassColumn.Integer, true⟩]
        [("id", JValue.num 1), ("extra", JValue.str "x")]
      = build_record [⟨"id", CassColumn.Integer, true⟩] [("id", JValue.num 1)]) :=
  ⟨(record_extraction_coercion [⟨"id", CassColumn.Integer, true⟩]
      [("id", JValue.num 1)]).1 [("id", CassValue.fromJson (JValue.num 1))] rfl,
   (record_extraction_coercion [⟨"id", CassColumn.Integer, true⟩]
      [("id", JValue.num 1)]).2.1
      [("id", JValue.num 1), ("extra", JValue.str "x")]
      (by intro c hc; simp only [List.mem_singleton] at hc; subst hc; rfl)⟩

/-- A row is never built from a record that misses one of the model's columns. -/
theorem build_record_missing_not_ok (cols : List ColumnDef)
    (r : List (String × JValue)) (c : ColumnDef) :
    c ∈ cols → lookupAssoc r c.name = none →
    ∀ out, build_record cols r ≠ .ok out := by
  induction cols with
  | nil => intro hc; cases hc
  | cons c0 rest ih =>
    intro hc hr out h
    simp only [build_record] at h
    rcases List.mem_cons.mp hc with hc1 | hc1
    · subst hc1
      rw [hr] at h
      cases h
    · rcases hl : lookupAssoc r c0.name with _ | v
      · simp only [hl] at h; cases h
      · simp only [hl] at h
        rcases ht : JSONVALUE_TO_CASSANDRA c0.ctype v with e | cv
        · simp only [ht] at h; cases h
        · simp only [ht] at h
          rcases hb : build_record rest r with e | tail
          · simp only [hb] at h; cases h
          · exact ih hc1 hr tail hb

/-- When every value the record does supply for the model's columns coerces
successfully, a missing column surfaces as precisely the `missingField` error
of the first absent column. -/
theorem build_record_missing_field (cols : List ColumnDef)
    (r : List (String × JValue)) (c : ColumnDef) :
    c ∈ cols → lookupAssoc r c.name = none →
    (∀ c' ∈ cols, ∀ v, lookupAssoc r c'.name = some v →
       ∃ cv, JSONVALUE_TO_CASSANDRA c'.ctype v = .ok cv) →
    ∃ c', c' ∈ cols ∧ lookupAssoc r c'.name = none ∧
      build_record cols r = .error (.missingField c'.name) := by
  induction cols with
  | nil => intro hc; cases hc
  | cons c0 rest ih =>
    intro hc hr hcoerce
    rcases hl : lookupAssoc r c0.name with _ | v
    · refine ⟨c0, List.mem_cons_self _ _, hl, ?_⟩
      simp only [build_record, hl]
    · have hc1 : c ∈ rest := by
        rcases List.mem_cons.mp hc with hc1 | hc1
        · subst hc1; rw [hr] at hl; cases hl
        · exact hc1
      obtain ⟨cv, hcv⟩ :=
        hcoerce c0 (List.mem_cons_self _ _) v hl
      obtain ⟨c', hc', hr', hb⟩ :=
        ih hc1 hr (fun c'' hc'' => hcoerce c'' (List.mem_cons_of_mem _ hc''))
      refine ⟨c', List.mem_cons_of_mem _ hc', hr', ?_⟩
      simp only [build_record, hl, hcv, hb]

/-- C9: a record that lacks one of its stream's declared columns never builds
a row; when every value it does supply coerces, the failure is precisely a
`missingField` error; and the processor's state — in particular the storage
log — is left untouched by such a RECORD message. -/
theorem missing_column_rejected (cols : List ColumnDef)
    (r : List (String × JValue)) (c : ColumnDef)
    (hc : c ∈ cols) (hr : lookupAssoc r c.name = none) :
    (∀ out, build_record cols r ≠ .ok out)
  ∧ ((∀ c' ∈ cols, ∀ v, lookupAssoc r c'.name = some v →
        ∃ cv, JSONVALUE_TO_CASSANDRA c'.ctype v = .ok cv) →
      ∃ c', c' ∈ cols ∧ lookupAssoc r c'.name = none ∧
        build_record cols r = .error (.missingField c'.name))
  ∧ (∀ validate st s model, lookupAssoc st.mapped_models s = some model →
       model.columns = cols → (step validate st (.record s r)).1 = st) := by
  refine ⟨build_record_missing_not_ok cols r c hc hr,
          build_record_missing_field cols r c hc hr, ?_⟩
  intro validate st s model hm hcols
  simp only [step]
  split
  · rfl
  · split
    · rfl
    · split
      · split
        · rfl
        · rename_i model' hm'
          split
          · rfl
          · rename_i row hb
            exfalso
            rw [hm] at hm'
            cases hm'
            rw [hcols] at hb
            exact build_record_missing_not_ok cols r c hc hr row hb
      · rfl

/-- Closed instance of `missing_column_rejected`: an empty record against a
one-column model fails with `missingField "id"`. -/
theorem missing_column_rejected_witness :
    ∃ c', c' ∈ [(⟨"id", CassColumn.Integer, true⟩ : ColumnDef)]
      ∧ lookupAssoc ([] : List (String × JValue)) c'.name = none
      ∧ build_record [⟨"id", CassColumn.Integer, true⟩] []
          = .error (.missingField c'.name) :=
  (missing_column_rejected [⟨"id", CassColumn.Integer, true⟩] []
      ⟨"id", CassColumn.Integer, true⟩ (List.mem_cons_self _ _) rfl).2.1
    (by intro c' hc' v hv; cases hv)

/-- C2: a RECORD message for a stream with no stored schema makes the step
fail with the record-before-schema protocol error and leaves the state — in
particular the storage log — untouched: neither validation nor row
construction nor insertion is attempted (the result is the same for every
validator behaviour). -/
theorem record_before_schema
    (validate : Validator → List (String × JValue) → Bool)
    (st : ProcState) (s : String) (r : List (String × JValue))
    (h : lookupAssoc st.schemas s = none) :
    step validate st (.record s r) = (st, some (.protocolError s))
  ∧ (step validate st (.record s r)).1.storage = st.storage := by
  have h1 : step validate st (.record s r) = (st, some (.protocolError s)) := by
    simp only [step, h]
  exact ⟨h1, by rw [h1]⟩

/-- Closed instance of `record_before_schema` at the initial state. -/
theorem record_before_schema_witness :
    step (fun _ _ => true) initState (.record "users" [])
      = (initState, some (.protocolError "users"))
  ∧ (step (fun _ _ => true) initState (.record "users" [])).1.storage
      = initState.storage :=
  record_before_schema (fun _ _ => true) initState "users" [] rfl

/-- C10: a SCHEMA message carrying a stream and a schema but no
`key_properties` makes the step fail, and the failing step has already stored
the new schema and validator for the stream while the model map, the sync log,
the defined-column map, the key-property map and the storage log are all
untouched — the per-stream update is not atomic on this failure. -/
theorem schema_missing_key_properties
    (validate : Validator → List (String × JValue) → Bool)
    (st : ProcState) (s : String) (sch : Schema) :
    step validate st (.schema s sch none)
      = ({ st with
             schemas := updateAssoc st.schemas s sch,
             validators := updateAssoc st.validators s (Draft4Validator sch) },
         some .keyPropertiesRequired)
  ∧ (step validate st (.schema s sch none)).1.mapped_models = st.mapped_models
  ∧ (step validate st (.schema s sch none)).1.synced = st.synced
  ∧ (step validate st (.schema s sch none)).1.defined_column_names
      = st.defined_column_names
  ∧ (step validate st (.schema s sch none)).1.key_properties = st.key_properties
  ∧ (step validate st (.schema s sch none)).1.storage = st.storage :=
  ⟨rfl, rfl, rfl, rfl, rfl, rfl⟩

/-- A RECORD step that raises no error ends with a cleared (`None`) checkpoint
slot. -/
theorem step_record_success_clears
    (validate : Validator → List (String × JValue) → Bool)
    (st : ProcState) (s : String) (r : List (String × JValue)) (st' : ProcState)
    (h : step validate st (.record s r) = (st', none)) : st'.state = .null := by
  simp only [step] at h
  split at h
  · cases h
  · split at h
    · cases h
    · split at h
      · split at h
        · cases h
        · split at h
          · cases h
          · cases h
            rfl
      · cases h

/-- A non-STATE step never turns a cleared checkpoint slot into a pending
one. -/
theorem step_no_state_null
    (validate : Validator → List (String × JValue) → Bool)
    (st : ProcState) (m : Message) (hm : ∀ v, m ≠ .state v)
    (h0 : st.state = .null) : (step validate st m).1.state = .null := by
  cases m with
  | record s r =>
    simp only [step]
    split
    · exact h0
    · split
      · exact h0
      · split
        · split
          · exact h0
          · split
            · exact h0
            · rfl
        · exact h0
  | state v => exact absurd rfl (hm v)
  | schema s sch kp =>
    rcases kp with _ | keys
    · exact h0
    · simp only [step]
      split
      · exact h0
      · exact h0
  | activate_version => exact h0

/-- A run over a message list with no STATE message ends with a cleared
checkpoint slot. -/
theorem persist_no_state_null
    (validate : Validator → List (String × JValue) → Bool) :
    ∀ (ms : List Message) (st : ProcState), (∀ v, Message.state v ∉ ms) →
      st.state = .null → (persist_lines validate st ms).1.state = .null := by
  intro ms
  induction ms with
  | nil => intro st _ h0; exact h0
  | cons m ms ih =>
    intro st hms h0
    have hm : ∀ v, m ≠ .state v := fun v hv =>
      hms v (by rw [← hv]; exact List.mem_cons_self m ms)
    have hall := step_no_state_null validate st m hm h0
    rcases hstep : step validate st m with ⟨st', oe⟩
    rw [hstep] at hall
    rcases oe with _ | e <;> simp only [persist_lines, hstep]
    · exact ih st' (fun v hv => hms v (List.mem_cons_of_mem _ hv)) hall
    · exact hall

/-- C1: the checkpoint slot starts cleared; a STATE message overwrites it with
the message's value; a successfully persisted RECORD clears it; at end of
stream the final slot value is emitted exactly when it is non-null — so a run
with no STATE message (or whose last checkpoint was cleared by a record)
emits nothing. -/
theorem checkpoint_lifecycle :
    initState.state = .null
  ∧ (∀ (validate : Validator → List (String × JValue) → Bool) st v,
       (step validate st (.state v)).1.state = v)
  ∧ (∀ (validate : Validator → List (String × JValue) → Bool) st s r st',
       step validate st (.record s r) = (st', none) → st'.state = .null)
  ∧ (∀ (validate : Validator → List (String × JValue) → Bool) ms st,
       run validate ms = (st, none) →
       run_output validate ms = emit_state st.state)
  ∧ (∀ (validate : Validator → List (String × JValue) → Bool) ms,
       (∀ v, Message.state v ∉ ms) → run_output validate ms = [])
  ∧ (∀ s, emit_state s = [] ↔ s = .null) := by
  refine ⟨rfl, fun _ _ _ => rfl, step_record_success_clears, ?_, ?_, ?_⟩
  · intro validate ms st h
    simp only [run_output, h]
  · intro validate ms hms
    have hnull := persist_no_state_null validate ms initState hms rfl
    simp only [run_output, run]
    rcases hrun : persist_lines validate initState ms with ⟨st, oe⟩
    rw [hrun] at hnull
    rcases oe with _ | e
    · simp only [hrun]
      rw [show st.state = JValue.null from hnull]
      rfl
    · simp only [hrun]
  · intro s
    cases s <;> simp [emit_state]

/-- Closed instance of `checkpoint_lifecycle`: a successful record clears the
pending checkpoint, a lone STATE run emits its value, a STATE-free run emits
nothing. -/
theorem checkpoint_lifecycle_witness :
    ((step (fun _ _ => true) stW (.record "s" [("id", JValue.num 1)])).1.state
       = JValue.null)
  ∧ run_output (fun _ _ => true) [.state (.str "B")]
      = emit_state (JValue.str "B")
  ∧ run_output (fun _ _ => true) [.activate_version] = [] := by
  refine ⟨?_, ?_, ?_⟩
  · exact checkpoint_lifecycle.2.2.1 (fun _ _ => true) stW "s"
      [("id", JValue.num 1)] _ rfl
  · exact checkpoint_lifecycle.2.2.2.1 (fun _ _ => true) [.state (.str "B")]
      { initState with state := .str "B" } rfl
  · exact checkpoint_lifecycle.2.2.2.2.1 (fun _ _ => true) [.activate_version]
      (by intro v hv; simp at hv)

/-- Closed instance of `schema_missing_key_properties` at the initial state. -/
theorem schema_missing_key_properties_witness :
    step (fun _ _ => true) initState (.schema "s" ⟨[]⟩ none)
      = ({ initState with
             schemas := updateAssoc initState.schemas "s" ⟨[]⟩,
             validators := updateAssoc initState.validators "s"
               (Draft4Validator ⟨[]⟩) },
         some .keyPropertiesRequired) :=
  (schema_missing_key_properties (fun _ _ => true) initState "s" ⟨[]⟩).1
